import Mathlib

/-!
Verification of the quadrilateral geometry engine of the
ChessScoreSheetScanner repository.

The development shallowly embeds the two source modules the claims are
about:

* `src/ui/utils/Quadrilateral.py` — the `Quadrilateral` class: interactive
  construction (`append_point_to_quadrilateral`), convexity checking
  (`is_convex`), point editing (`update_point`, `move_delta`), hit testing
  (`is_point_in_quadrilateral`), corner-role assignment
  (`update_corner_ids`, `get_corner` and friends) and grid subdivision
  (`get_internal_rows`).
* `src/ui/image_view.py` — the collection state of `ImageView` relevant to
  deletion: the quadrilateral list, the selection id and the drag flags,
  with `delete_quadrilateral`, `update_quadrilateral_ids` and
  `unselect_all`.

Python `QPointF` coordinates (floats) are modelled as exact rationals `ℚ`;
every concrete input exercised below is exactly representable in binary
floating point and all operations on those inputs are exact, so the model
agrees with the float semantics on them.  Python methods that mutate
`self` become functions returning the new state (paired with the `int`
status code where the source returns one).  A Python local variable that
may be read before assignment (`xinters` in the ray-casting loop) is
modelled with `Option`, `none` standing for the `NameError` path.
-/

set_option allowUnsafeReducibility true in
attribute [semireducible] Rat.add Rat.mul Rat.sub Rat.div Rat.inv Rat.neg

/-- Model of Qt's `QPointF`: a 2D point with (here: exact rational)
coordinates. -/
structure QPointF where
  x : ℚ
  y : ℚ
deriving DecidableEq, Repr, Inhabited

namespace QPointF

/-- `QPointF.__add__`: componentwise addition. -/
def add (p q : QPointF) : QPointF := ⟨p.x + q.x, p.y + q.y⟩

/-- `QPointF.__sub__`: componentwise subtraction. -/
def sub (p q : QPointF) : QPointF := ⟨p.x - q.x, p.y - q.y⟩

/-- `QPointF.__mul__` with a scalar: componentwise scaling. -/
def smul (p : QPointF) (s : ℚ) : QPointF := ⟨p.x * s, p.y * s⟩

/-- `QPointF.manhattanLength()`: `|x| + |y|`. -/
def manhattanLength (p : QPointF) : ℚ := |p.x| + |p.y|

instance : Add QPointF := ⟨add⟩

end QPointF

/-- State of `Quadrilateral.__init__` (Quadrilateral.py, lines 67-90):
the point list, the two flags, the four corner-role indices and the
optional display id.  The drawing-style class constants are not part of
the geometric state. -/
structure Quadrilateral where
  quadrilateral_points : List QPointF
  drawing_complete : Bool
  is_selected : Bool
  top_left_id : Option Nat
  top_right_id : Option Nat
  bottom_left_id : Option Nat
  bottom_right_id : Option Nat
  quadrilateral_id : Option Nat
deriving DecidableEq, Repr, Inhabited

namespace Quadrilateral

/-- `Quadrilateral.NB_SIDE = 4`. -/
def NB_SIDE : Nat := 4

/-- `Quadrilateral.CLOSE_POINT_DISTANCE = 10`. -/
def CLOSE_POINT_DISTANCE : ℚ := 10

/-- `Quadrilateral.__init__`: empty point list, flags down, no corner
roles, no id. -/
def init : Quadrilateral :=
  { quadrilateral_points := []
    drawing_complete := false
    is_selected := false
    top_left_id := none
    top_right_id := none
    bottom_left_id := none
    bottom_right_id := none
    quadrilateral_id := none }

/-- Loop body of `find_close_corner`: scan the point list with its index,
stopping at the first corner whose Manhattan distance to `point` is
strictly below `CLOSE_POINT_DISTANCE`. -/
def findCloseAux (point : QPointF) : List QPointF → Nat → Option Nat
  | [], _ => none
  | quadrilateral_point :: rest, point_id =>
    if (point.sub quadrilateral_point).manhattanLength < CLOSE_POINT_DISTANCE then
      some point_id
    else
      findCloseAux point rest (point_id + 1)

/-- `Quadrilateral.find_close_corner` (lines 92-108): index of the first
corner within `CLOSE_POINT_DISTANCE` (strict, Manhattan) of `point`,
else `none`. -/
def find_close_corner (q : Quadrilateral) (point : QPointF) : Option Nat :=
  findCloseAux point q.quadrilateral_points 0

/-- The local `cross(a, b, c)` of `is_convex` (lines 123-126): z-component
of the 2D cross product of `b - a` and `c - b`. -/
def cross (a b c : QPointF) : ℚ :=
  (b.x - a.x) * (c.y - b.y) - (b.y - a.y) * (c.x - b.x)

/-- `Quadrilateral.is_convex` (lines 110-132): false unless exactly 4
points; otherwise collect the booleans `0 < cross(p[i], p[(i+1)%4],
p[(i+2)%4])` for `i = 0..3` and accept when all are true or none is. -/
def is_convex (points : List QPointF) : Bool :=
  if points.length ≠ 4 then
    false
  else
    let signs := (List.range 4).map fun i =>
      decide (0 < cross (points.getD i default)
        (points.getD ((i + 1) % 4) default)
        (points.getD ((i + 2) % 4) default))
    signs.all id || !(signs.any id)

/-- Tail of `Quadrilateral.update_corner_ids` (lines 277-293): unpack the
sorted index list into the two top and the two bottom indices and order
each pair by the x-coordinate of its point.  The wildcard branch is
unreachable: the sorted index list always has 4 elements (Python unpacks
it into exactly 4 variables). -/
def assign_corner_ids (q : Quadrilateral) (sorted_indices : List Nat) : Quadrilateral :=
  let pts := q.quadrilateral_points
  match sorted_indices with
  | [top1_idx, top2_idx, bottom1_idx, bottom2_idx] =>
    let top_pair :=
      if (pts.getD top1_idx default).x ≤ (pts.getD top2_idx default).x then
        (top1_idx, top2_idx)
      else
        (top2_idx, top1_idx)
    let bottom_pair :=
      if (pts.getD bottom1_idx default).x ≤ (pts.getD bottom2_idx default).x then
        (bottom1_idx, bottom2_idx)
      else
        (bottom2_idx, bottom1_idx)
    { q with
        top_left_id := some top_pair.1
        top_right_id := some top_pair.2
        bottom_left_id := some bottom_pair.1
        bottom_right_id := some bottom_pair.2 }
  | _ => q

/-- `Quadrilateral.update_corner_ids` (lines 261-293): no-op unless the
drawing is complete; otherwise stably sort the indices `0..3` by the
y-coordinate of their point (Python's `sorted` is a stable ascending
sort, as is `List.insertionSort` with a total `≤` test) and assign the
corner roles from the sorted order. -/
def update_corner_ids (q : Quadrilateral) : Quadrilateral :=
  if q.drawing_complete = false then
    q
  else
    let pts := q.quadrilateral_points
    assign_corner_ids q
      (List.insertionSort
        (fun i j => (pts.getD i default).y ≤ (pts.getD j default).y)
        (List.range NB_SIDE))

/-- `Quadrilateral.append_point_to_quadrilateral` (lines 134-171).
Returns the `int` status code (0 success, -1 failure) together with the
state after the call. -/
def append_point_to_quadrilateral (q : Quadrilateral) (new_point : QPointF) :
    Int × Quadrilateral :=
  if q.drawing_complete then
    (-1, q)
  else if (find_close_corner q new_point).isSome then
    (-1, q)
  else
    let temp_points := q.quadrilateral_points ++ [new_point]
    if temp_points.length = NB_SIDE ∧ is_convex temp_points = false then
      (-1, q)
    else
      let q1 := { q with quadrilateral_points := q.quadrilateral_points ++ [new_point] }
      if q1.quadrilateral_points.length = NB_SIDE then
        (0, update_corner_ids { q1 with drawing_complete := true })
      else
        (0, q1)

/-- `Quadrilateral.update_point` (lines 173-201).  The index check is
`0 <= point_id < NB_SIDE` on the Python `int`, modelled on `ℤ`.  Returns
the `int` status code together with the state after the call.  (Python's
in-place element assignment would raise on a list shorter than the
checked bound; that state is unreachable and `List.set` is then the
identity.) -/
def update_point (q : Quadrilateral) (point_id : Int) (new_point_value : QPointF) :
    Int × Quadrilateral :=
  if q.drawing_complete = false then
    (-1, q)
  else if ¬(0 ≤ point_id ∧ point_id < (NB_SIDE : Int)) then
    (-1, q)
  else
    let temp_points := q.quadrilateral_points.set point_id.toNat new_point_value
    if is_convex temp_points = false then
      (-1, q)
    else
      (0, update_corner_ids { q with quadrilateral_points := temp_points })

/-- One iteration of the ray-casting loop of `is_point_in_quadrilateral`
(lines 224-230), acting on the pair (inside, xinters).  `xinters` is a
Python local that persists across iterations and may be read before any
assignment; `none` models the unassigned state, and the result `none`
models the `NameError` raised when it is read unassigned (reached only
when `p1x ≠ p2x` after skipping the `p1y ≠ p2y` assignment guard). -/
def ray_step (x y : ℚ) (p1 p2 : QPointF) (inside : Bool) (xinters : Option ℚ) :
    Option (Bool × Option ℚ) :=
  if y > min p1.y p2.y then
    if y ≤ max p1.y p2.y then
      if x ≤ max p1.x p2.x then
        let xinters1 :=
          if p1.y ≠ p2.y then
            some ((y - p1.y) * (p2.x - p1.x) / (p2.y - p1.y) + p1.x)
          else
            xinters
        if p1.x = p2.x then
          some (!inside, xinters1)
        else
          match xinters1 with
          | some v => some (if x ≤ v then !inside else inside, xinters1)
          | none => none
      else
        some (inside, xinters)
    else
      some (inside, xinters)
  else
    some (inside, xinters)

/-- The `for i in range(NB_SIDE+1)` loop of `is_point_in_quadrilateral`:
`p2 = points[i % NB_SIDE]`, run `ray_step`, then `p1 = p2`. -/
def ray_loop (x y : ℚ) (pts : List QPointF) :
    List Nat → QPointF → Bool → Option ℚ → Option Bool
  | [], _, inside, _ => some inside
  | i :: rest, p1, inside, xinters =>
    let p2 := pts.getD (i % NB_SIDE) default
    match ray_step x y p1 p2 inside xinters with
    | some st => ray_loop x y pts rest p2 st.1 st.2
    | none => none

/-- `Quadrilateral.is_point_in_quadrilateral` (lines 203-232): `False`
when the drawing is not complete, else the even-odd ray-casting loop.
`some b` is a normal return of `b`; `none` is the `NameError` path of the
unassigned `xinters` local. -/
def is_point_in_quadrilateral (q : Quadrilateral) (point : QPointF) : Option Bool :=
  if q.drawing_complete = false then
    some false
  else
    ray_loop point.x point.y q.quadrilateral_points
      (List.range (NB_SIDE + 1))
      (q.quadrilateral_points.getD 0 default) false none

/-- One step of the `move_delta` loop: read the point at index `i` of the
live list and attempt `update_point`, discarding its result code. -/
def move_delta_step (delta : QPointF) (acc : Quadrilateral) (i : Nat) : Quadrilateral :=
  match acc.quadrilateral_points.get? i with
  | some point => (update_point acc (i : Int) (point.add delta)).2
  | none => acc

/-- `Quadrilateral.move_delta` (lines 234-245): `for i, point in
enumerate(self.quadrilateral_points): self.update_point(i, point + delta)`.
`enumerate` reads the live list once per step (its length never changes),
and each `update_point` result code is discarded. -/
def move_delta (q : Quadrilateral) (delta : QPointF) : Quadrilateral :=
  (List.range q.quadrilateral_points.length).foldl (move_delta_step delta) q

/-- `Quadrilateral.get_corner` (lines 295-309): `none` for a `none` or
out-of-range id, else the stored point at that index.  Ids are produced
by `update_corner_ids` from `range(4)`, hence natural numbers. -/
def get_corner (q : Quadrilateral) (corner_id : Option Nat) : Option QPointF :=
  match corner_id with
  | none => none
  | some cid =>
    if ¬(cid < NB_SIDE) then
      none
    else
      q.quadrilateral_points.get? cid

/-- `Quadrilateral.get_top_left` (lines 311-312). -/
def get_top_left (q : Quadrilateral) : Option QPointF :=
  get_corner q q.top_left_id

/-- `Quadrilateral.get_top_right` (lines 314-315). -/
def get_top_right (q : Quadrilateral) : Option QPointF :=
  get_corner q q.top_right_id

/-- `Quadrilateral.get_bottom_left` (lines 317-318). -/
def get_bottom_left (q : Quadrilateral) : Option QPointF :=
  get_corner q q.bottom_left_id

/-- `Quadrilateral.get_bottom_right` (lines 320-321). -/
def get_bottom_right (q : Quadrilateral) : Option QPointF :=
  get_corner q q.bottom_right_id

/-- `Quadrilateral.get_internal_rows` (lines 323-362): `none` when a
corner accessor fails or `nb_internal_rows < 1`; `[]` when it is 1; else
the segments at `t = r / nb_internal_rows` for `r = 1 .. nb_internal_rows - 1`,
each the pair of interpolated endpoints `tl*(1-t) + bl*t` and
`tr*(1-t) + br*t`. -/
def get_internal_rows (q : Quadrilateral) (nb_internal_rows : Int) :
    Option (List (List QPointF)) :=
  match get_top_left q, get_top_right q, get_bottom_left q, get_bottom_right q with
  | some pt_tl, some pt_tr, some pt_bl, some pt_br =>
    if nb_internal_rows < 1 then
      none
    else if nb_internal_rows = 1 then
      some []
    else
      some ((List.range (nb_internal_rows.toNat - 1)).map fun k =>
        let r : Int := (k : Int) + 1
        let t : ℚ := (r : ℚ) / (nb_internal_rows : ℚ)
        [(pt_tl.smul (1 - t)).add (pt_bl.smul t),
         (pt_tr.smul (1 - t)).add (pt_br.smul t)])
  | _, _, _, _ => none

end Quadrilateral

/-- The slice of `ImageView`'s state (image_view.py, lines 112-114 and
172-173) that the deletion claims are about: the quadrilateral list, the
selection id and the two drag fields.  The Qt widgets, cursor and scale
state are pure GUI and carry no collection semantics. -/
structure ImageView where
  quadrilaterals : List Quadrilateral
  selected_quadrilateral_id : Option Nat
  dragging_quadrilateral : Bool
  dragging_point_id : Option Nat
deriving DecidableEq, Repr

namespace ImageView

/-- `ImageView.get_nb_quadrilateral` (lines 182-189). -/
def get_nb_quadrilateral (v : ImageView) : Nat :=
  v.quadrilaterals.length

/-- `ImageView.unselect_all` (lines 279-286): clear the selection id and
lower every quadrilateral's `is_selected` flag.  It does not touch the
drag fields. -/
def unselect_all (v : ImageView) : ImageView :=
  { v with
      selected_quadrilateral_id := none
      quadrilaterals := v.quadrilaterals.map fun q => { q with is_selected := false } }

/-- `ImageView.update_quadrilateral_ids` (lines 230-238): assign each
quadrilateral its position in the list as id. -/
def update_quadrilateral_ids (v : ImageView) : ImageView :=
  { v with
      quadrilaterals := v.quadrilaterals.mapIdx fun i q =>
        { q with quadrilateral_id := some i } }

/-- `ImageView.delete_quadrilateral` (lines 204-228): bounds-check the
id, delete the entry, re-derive ids, clear the selection.  Returns the
`int` status code together with the state after the call. -/
def delete_quadrilateral (v : ImageView) (quadrilateral_id : Int) : Int × ImageView :=
  if ¬(0 ≤ quadrilateral_id ∧ quadrilateral_id < (v.get_nb_quadrilateral : Int)) then
    (-1, v)
  else
    let v1 := { v with quadrilaterals := v.quadrilaterals.eraseIdx quadrilateral_id.toNat }
    (0, unselect_all (update_quadrilateral_ids v1))

end ImageView

/-! ## Concrete fixtures used by the claims -/

namespace Quadrilateral

/-- Click a sequence of points into a fresh quadrilateral, collecting the
status code of every `append_point_to_quadrilateral` call together with
the final state. -/
def clickSequence (pts : List QPointF) : List Int × Quadrilateral :=
  pts.foldl
    (fun acc p =>
      let r := append_point_to_quadrilateral acc.2 p
      (acc.1 ++ [r.1], r.2))
    ([], init)

/-- The 10-by-10 square corners in cyclic click order, first rotation. -/
def sqPts : List QPointF := [⟨0, 0⟩, ⟨10, 0⟩, ⟨10, 10⟩, ⟨0, 10⟩]

/-- Second cyclic rotation of the square click order. -/
def sqPts1 : List QPointF := [⟨10, 0⟩, ⟨10, 10⟩, ⟨0, 10⟩, ⟨0, 0⟩]

/-- Third cyclic rotation of the square click order. -/
def sqPts2 : List QPointF := [⟨10, 10⟩, ⟨0, 10⟩, ⟨0, 0⟩, ⟨10, 0⟩]

/-- Fourth cyclic rotation of the square click order. -/
def sqPts3 : List QPointF := [⟨0, 10⟩, ⟨0, 0⟩, ⟨10, 0⟩, ⟨10, 10⟩]

/-- The complete 10-by-10 square quadrilateral, constructed through the
real click path. -/
def sq10 : Quadrilateral := (clickSequence sqPts).2

/-- A diamond whose adjacent corners sit at Manhattan distance exactly
`CLOSE_POINT_DISTANCE = 10` from each other. -/
def diamondPts : List QPointF := [⟨5, 0⟩, ⟨10, 5⟩, ⟨5, 10⟩, ⟨0, 5⟩]

/-- Invariant of claim C9: a complete quadrilateral stores 4 points and
its four corner-role indices are defined and are a permutation of
0, 1, 2, 3. -/
def corner_ids_ok (q : Quadrilateral) : Prop :=
  q.drawing_complete = true →
    q.quadrilateral_points.length = NB_SIDE ∧
    ∃ tl tr bl br, q.top_left_id = some tl ∧ q.top_right_id = some tr ∧
      q.bottom_left_id = some bl ∧ q.bottom_right_id = some br ∧
      [tl, tr, bl, br].Perm [0, 1, 2, 3]

end Quadrilateral

/-- A one-shape collection captured mid-drag: shape 0 is selected, the
whole-shape drag flag is up and a corner-drag index is set. -/
def vDrag : ImageView :=
  { quadrilaterals := [Quadrilateral.init]
    selected_quadrilateral_id := some 0
    dragging_quadrilateral := true
    dragging_point_id := some 1 }

/-! ## Helper lemmas -/

namespace Quadrilateral

theorem assign_corner_ids_points (q : Quadrilateral) (s : List Nat) :
    (assign_corner_ids q s).quadrilateral_points = q.quadrilateral_points := by
  unfold assign_corner_ids
  rcases s with _ | ⟨a, _ | ⟨b, _ | ⟨c, _ | ⟨d, _ | ⟨e, t⟩⟩⟩⟩⟩ <;> rfl

theorem assign_corner_ids_complete (q : Quadrilateral) (s : List Nat) :
    (assign_corner_ids q s).drawing_complete = q.drawing_complete := by
  unfold assign_corner_ids
  rcases s with _ | ⟨a, _ | ⟨b, _ | ⟨c, _ | ⟨d, _ | ⟨e, t⟩⟩⟩⟩⟩ <;> rfl

theorem update_corner_ids_points (q : Quadrilateral) :
    (update_corner_ids q).quadrilateral_points = q.quadrilateral_points := by
  unfold update_corner_ids
  split
  · rfl
  · exact assign_corner_ids_points _ _

theorem update_corner_ids_complete (q : Quadrilateral) :
    (update_corner_ids q).drawing_complete = q.drawing_complete := by
  unfold update_corner_ids
  split
  · rfl
  · exact assign_corner_ids_complete _ _

theorem findCloseAux_eq_none_iff (p : QPointF) (l : List QPointF) (n : Nat) :
    findCloseAux p l n = none ↔
      ∀ pt ∈ l, ¬((p.sub pt).manhattanLength < CLOSE_POINT_DISTANCE) := by
  induction l generalizing n with
  | nil => simp [findCloseAux]
  | cons hd tl ih =>
    unfold findCloseAux
    by_cases h : (p.sub hd).manhattanLength < CLOSE_POINT_DISTANCE
    · simp [h]
    · simp only [h, if_false, ih, List.mem_cons, not_lt]
      constructor
      · intro ha
        rintro pt (rfl | hm)
        · exact not_lt.mp h
        · exact ha pt hm
      · intro ha pt hm
        exact ha pt (Or.inr hm)

theorem find_close_corner_eq_none_iff (q : Quadrilateral) (p : QPointF) :
    find_close_corner q p = none ↔
      ∀ pt ∈ q.quadrilateral_points,
        ¬((p.sub pt).manhattanLength < CLOSE_POINT_DISTANCE) :=
  findCloseAux_eq_none_iff p q.quadrilateral_points 0

theorem find_close_corner_isSome_iff (q : Quadrilateral) (p : QPointF) :
    (find_close_corner q p).isSome = true ↔
      ∃ pt ∈ q.quadrilateral_points,
        (p.sub pt).manhattanLength < CLOSE_POINT_DISTANCE := by
  rw [← Option.ne_none_iff_isSome, Ne, find_close_corner_eq_none_iff]
  push_neg
  simp

end Quadrilateral

namespace Quadrilateral

theorem is_convex_quad_iff (a b c d : QPointF) :
    is_convex [a, b, c, d] = true ↔
      ((0 < cross a b c ∧ 0 < cross b c d ∧ 0 < cross c d a ∧ 0 < cross d a b) ∨
       (cross a b c ≤ 0 ∧ cross b c d ≤ 0 ∧ cross c d a ≤ 0 ∧ cross d a b ≤ 0)) := by
  show (if (4 : Nat) ≠ 4 then false else _) = true ↔ _
  simp only [ne_eq, not_true_eq_false, if_false]
  show ([decide (0 < cross a b c), decide (0 < cross b c d),
         decide (0 < cross c d a), decide (0 < cross d a b)].all id ||
        !([decide (0 < cross a b c), decide (0 < cross b c d),
           decide (0 < cross c d a), decide (0 < cross d a b)].any id)) = true ↔ _
  simp [List.all, List.any, not_lt, and_assoc]

theorem cross_reverse (a b c : QPointF) : cross c b a = -cross a b c := by
  unfold cross
  ring

end Quadrilateral

namespace Quadrilateral

theorem update_point_success (q : Quadrilateral) (i : Int) (p : QPointF)
    (hc : q.drawing_complete = true)
    (hb : 0 ≤ i ∧ i < (NB_SIDE : Int))
    (hconv : is_convex (q.quadrilateral_points.set i.toNat p) = true) :
    update_point q i p =
      (0, update_corner_ids { q with quadrilateral_points := q.quadrilateral_points.set i.toNat p }) := by
  unfold update_point
  rw [hc]
  simp [hb, hconv]

theorem move_delta_step_eq (delta : QPointF) (acc : Quadrilateral) (i : Nat) (pt : QPointF)
    (h : acc.quadrilateral_points.get? i = some pt) :
    move_delta_step delta acc i = (update_point acc (i : Int) (pt.add delta)).2 := by
  unfold move_delta_step
  rw [h]

/-- C1 (amended): `move_delta` translates all 4 stored points by `delta`
provided the quadrilateral is complete and each of the four intermediate
point lists produced mid-translation (first k points moved, the rest not
yet) passes `is_convex`.  The original claim — that this holds for every
complete convex quadrilateral and every delta — is refuted by the
counterexample theorem. -/
theorem move_delta_translates (q : Quadrilateral) (delta a b c d : QPointF)
    (hc : q.drawing_complete = true)
    (hpts : q.quadrilateral_points = [a, b, c, d])
    (h1 : is_convex [a.add delta, b, c, d] = true)
    (h2 : is_convex [a.add delta, b.add delta, c, d] = true)
    (h3 : is_convex [a.add delta, b.add delta, c.add delta, d] = true)
    (h4 : is_convex [a.add delta, b.add delta, c.add delta, d.add delta] = true) :
    (move_delta q delta).quadrilateral_points =
      q.quadrilateral_points.map (fun pt => pt.add delta) := by
  have hlen : q.quadrilateral_points.length = 4 := by rw [hpts]; rfl
  set q1 := update_corner_ids { q with quadrilateral_points := [a.add delta, b, c, d] } with hq1
  have hq1pts : q1.quadrilateral_points = [a.add delta, b, c, d] := by
    rw [hq1, update_corner_ids_points]
  have hq1c : q1.drawing_complete = true := by
    rw [hq1, update_corner_ids_complete]; exact hc
  set q2 := update_corner_ids { q1 with quadrilateral_points := [a.add delta, b.add delta, c, d] } with hq2
  have hq2pts : q2.quadrilateral_points = [a.add delta, b.add delta, c, d] := by
    rw [hq2, update_corner_ids_points]
  have hq2c : q2.drawing_complete = true := by
    rw [hq2, update_corner_ids_complete]; exact hq1c
  set q3 := update_corner_ids { q2 with quadrilateral_points := [a.add delta, b.add delta, c.add delta, d] } with hq3
  have hq3pts : q3.quadrilateral_points = [a.add delta, b.add delta, c.add delta, d] := by
    rw [hq3, update_corner_ids_points]
  have hq3c : q3.drawing_complete = true := by
    rw [hq3, update_corner_ids_complete]; exact hq2c
  set q4 := update_corner_ids { q3 with quadrilateral_points := [a.add delta, b.add delta, c.add delta, d.add delta] } with hq4
  have hq4pts : q4.quadrilateral_points = [a.add delta, b.add delta, c.add delta, d.add delta] := by
    rw [hq4, update_corner_ids_points]
  have s0 : move_delta_step delta q 0 = q1 := by
    rw [move_delta_step_eq delta q 0 a (by rw [hpts]; rfl)]
    rw [update_point_success q ((0 : Nat) : Int) (a.add delta) hc (by constructor <;> decide)
      (by rw [hpts]; exact h1)]
    rw [hq1, hpts]
    rfl
  have s1 : move_delta_step delta q1 1 = q2 := by
    rw [move_delta_step_eq delta q1 1 b (by rw [hq1pts]; rfl)]
    rw [update_point_success q1 ((1 : Nat) : Int) (b.add delta) hq1c (by constructor <;> decide)
      (by rw [hq1pts]; exact h2)]
    rw [hq2, hq1pts]
    rfl
  have s2 : move_delta_step delta q2 2 = q3 := by
    rw [move_delta_step_eq delta q2 2 c (by rw [hq2pts]; rfl)]
    rw [update_point_success q2 ((2 : Nat) : Int) (c.add delta) hq2c (by constructor <;> decide)
      (by rw [hq2pts]; exact h3)]
    rw [hq3, hq2pts]
    rfl
  have s3 : move_delta_step delta q3 3 = q4 := by
    rw [move_delta_step_eq delta q3 3 d (by rw [hq3pts]; rfl)]
    rw [update_point_success q3 ((3 : Nat) : Int) (d.add delta) hq3c (by constructor <;> decide)
      (by rw [hq3pts]; exact h4)]
    rw [hq4, hq3pts]
    rfl
  unfold move_delta
  rw [hlen]
  rw [show List.range 4 = [0, 1, 2, 3] from rfl]
  simp only [List.foldl_cons, List.foldl_nil]
  rw [s0, s1, s2, s3, hq4pts, hpts]
  rfl

end Quadrilateral

namespace Quadrilateral

theorem assign_corner_ids_perm (q : Quadrilateral) (t1 t2 b1 b2 : Nat) :
    ∃ tl tr bl br,
      (assign_corner_ids q [t1, t2, b1, b2]).top_left_id = some tl ∧
      (assign_corner_ids q [t1, t2, b1, b2]).top_right_id = some tr ∧
      (assign_corner_ids q [t1, t2, b1, b2]).bottom_left_id = some bl ∧
      (assign_corner_ids q [t1, t2, b1, b2]).bottom_right_id = some br ∧
      [tl, tr, bl, br].Perm [t1, t2, b1, b2] := by
  unfold assign_corner_ids
  by_cases h1 : (q.quadrilateral_points.getD t1 default).x ≤ (q.quadrilateral_points.getD t2 default).x <;>
    by_cases h2 : (q.quadrilateral_points.getD b1 default).x ≤ (q.quadrilateral_points.getD b2 default).x <;>
      simp only [h1, h2, if_true, if_false]
  · exact ⟨t1, t2, b1, b2, rfl, rfl, rfl, rfl, List.Perm.refl _⟩
  · exact ⟨t1, t2, b2, b1, rfl, rfl, rfl, rfl,
      List.Perm.cons _ (List.Perm.cons _ (List.Perm.swap _ _ _))⟩
  · exact ⟨t2, t1, b1, b2, rfl, rfl, rfl, rfl, List.Perm.swap _ _ _⟩
  · exact ⟨t2, t1, b2, b1, rfl, rfl, rfl, rfl,
      List.Perm.trans (List.Perm.cons _ (List.Perm.cons _ (List.Perm.swap _ _ _)))
        (List.Perm.swap _ _ _)⟩

theorem update_corner_ids_perm (q : Quadrilateral) (hcomplete : q.drawing_complete = true) :
    ∃ tl tr bl br,
      (update_corner_ids q).top_left_id = some tl ∧
      (update_corner_ids q).top_right_id = some tr ∧
      (update_corner_ids q).bottom_left_id = some bl ∧
      (update_corner_ids q).bottom_right_id = some br ∧
      [tl, tr, bl, br].Perm [0, 1, 2, 3] := by
  have heq : update_corner_ids q = assign_corner_ids q
      (List.insertionSort
        (fun i j => (q.quadrilateral_points.getD i default).y ≤ (q.quadrilateral_points.getD j default).y)
        (List.range NB_SIDE)) := by
    unfold update_corner_ids
    rw [hcomplete]
    rfl
  set s := List.insertionSort
    (fun i j => (q.quadrilateral_points.getD i default).y ≤ (q.quadrilateral_points.getD j default).y)
    (List.range NB_SIDE) with hs
  have hperm : s.Perm (List.range NB_SIDE) := List.perm_insertionSort _ _
  have hlen : s.length = 4 := by rw [hperm.length_eq]; rfl
  have hrange : List.range NB_SIDE = [0, 1, 2, 3] := rfl
  rcases s with _ | ⟨x1, _ | ⟨x2, _ | ⟨x3, _ | ⟨x4, _ | ⟨x5, t⟩⟩⟩⟩⟩ <;> simp at hlen
  obtain ⟨tl, tr, bl, br, e1, e2, e3, e4, hp⟩ := assign_corner_ids_perm q x1 x2 x3 x4
  refine ⟨tl, tr, bl, br, ?_, ?_, ?_, ?_, ?_⟩
  · rw [heq]; exact e1
  · rw [heq]; exact e2
  · rw [heq]; exact e3
  · rw [heq]; exact e4
  · exact hp.trans (hrange ▸ hperm)

end Quadrilateral

namespace Quadrilateral

theorem corner_ids_ok_append (q : Quadrilateral) (p : QPointF) (h : corner_ids_ok q) :
    corner_ids_ok (append_point_to_quadrilateral q p).2 := by
  unfold append_point_to_quadrilateral
  by_cases hdc : q.drawing_complete
  · simp only [hdc, if_true]; exact h
  · simp only [hdc, if_false, Bool.false_eq_true]
    cases hfc : find_close_corner q p with
    | some k => simp only [hfc, Option.isSome_some, if_true]; exact h
    | none =>
      simp only [hfc, Option.isSome_none, Bool.false_eq_true, if_false]
      by_cases hcv : (q.quadrilateral_points ++ [p]).length = NB_SIDE ∧
          is_convex (q.quadrilateral_points ++ [p]) = false
      · simp only [hcv, if_true]; exact h
      · simp only [hcv, if_false]
        by_cases hl4 : (q.quadrilateral_points ++ [p]).length = NB_SIDE
        · simp only [hl4, if_true]
          intro _
          constructor
          · rw [update_corner_ids_points]; exact hl4
          · exact update_corner_ids_perm _ rfl
        · simp only [hl4, if_false]
          intro hcontr
          exact absurd hcontr Bool.false_ne_true

end Quadrilateral

namespace Quadrilateral

theorem corner_ids_ok_update_point (q : Quadrilateral) (i : Int) (p : QPointF)
    (h : corner_ids_ok q) : corner_ids_ok (update_point q i p).2 := by
  by_cases hdc : q.drawing_complete = true
  · by_cases hb : 0 ≤ i ∧ i < (NB_SIDE : Int)
    · by_cases hcv : is_convex (q.quadrilateral_points.set i.toNat p) = true
      · rw [update_point_success q i p hdc hb hcv]
        intro _
        constructor
        · rw [update_corner_ids_points]
          simp only [List.length_set]
          exact (h hdc).1
        · exact update_corner_ids_perm _ hdc
      · unfold update_point
        rw [hdc]
        simp only [Bool.true_eq_false, if_false, hb, not_true_eq_false,
          Bool.not_eq_true (is_convex (q.quadrilateral_points.set i.toNat p)) ▸ hcv]
        simp only [Bool.not_eq_true] at hcv
        simp only [hcv, if_true]
        exact h
    · unfold update_point
      rw [hdc]
      simp only [Bool.true_eq_false, if_false, hb, not_false_eq_true, if_true]
      exact h
  · unfold update_point
    have hdf : q.drawing_complete = false := by
      cases hq : q.drawing_complete
      · rfl
      · exact absurd hq hdc
    rw [hdf]
    simp only [if_true]
    exact h

end Quadrilateral

namespace Quadrilateral

theorem corner_ids_ok_move_delta_step (delta : QPointF) (acc : Quadrilateral) (i : Nat)
    (h : corner_ids_ok acc) : corner_ids_ok (move_delta_step delta acc i) := by
  unfold move_delta_step
  cases hg : acc.quadrilateral_points.get? i with
  | none => exact h
  | some pt => exact corner_ids_ok_update_point acc i (pt.add delta) h

theorem corner_ids_ok_foldl (delta : QPointF) (l : List Nat) (q : Quadrilateral)
    (h : corner_ids_ok q) : corner_ids_ok (l.foldl (move_delta_step delta) q) := by
  induction l generalizing q with
  | nil => exact h
  | cons hd tl ih =>
    exact ih _ (corner_ids_ok_move_delta_step delta q hd h)

theorem corner_ids_ok_move_delta (q : Quadrilateral) (delta : QPointF)
    (h : corner_ids_ok q) : corner_ids_ok (move_delta q delta) :=
  corner_ids_ok_foldl delta _ q h

theorem get_corner_isSome (q : Quadrilateral) (cid : Nat)
    (hlen : q.quadrilateral_points.length = NB_SIDE) (hcid : cid < NB_SIDE) :
    (get_corner q (some cid)).isSome = true := by
  unfold get_corner
  simp only [hcid, not_true_eq_false, if_false]
  rw [List.get?_eq_get (by rw [hlen]; exact hcid)]
  rfl

theorem corner_accessors_isSome (q : Quadrilateral)
    (h : corner_ids_ok q) (hc : q.drawing_complete = true) :
    (get_top_left q).isSome = true ∧ (get_top_right q).isSome = true ∧
    (get_bottom_left q).isSome = true ∧ (get_bottom_right q).isSome = true := by
  obtain ⟨hlen, tl, tr, bl, br, e1, e2, e3, e4, hp⟩ := h hc
  have hmem : ∀ z ∈ [tl, tr, bl, br], z < NB_SIDE := by
    intro z hz
    have hz2 := hp.mem_iff.mp hz
    simp only [List.mem_cons, List.not_mem_nil, or_false] at hz2
    rcases hz2 with rfl | rfl | rfl | rfl <;> decide
  refine ⟨?_, ?_, ?_, ?_⟩
  · unfold get_top_left; rw [e1]; exact get_corner_isSome q tl hlen (hmem tl (by simp))
  · unfold get_top_right; rw [e2]; exact get_corner_isSome q tr hlen (hmem tr (by simp))
  · unfold get_bottom_left; rw [e3]; exact get_corner_isSome q bl hlen (hmem bl (by simp))
  · unfold get_bottom_right; rw [e4]; exact get_corner_isSome q br hlen (hmem br (by simp))

end Quadrilateral

namespace Quadrilateral

theorem append_branch_complete (q : Quadrilateral) (p : QPointF)
    (hdc : q.drawing_complete = true) :
    append_point_to_quadrilateral q p = (-1, q) := by
  unfold append_point_to_quadrilateral
  rw [hdc]
  rfl

theorem append_branch_close (q : Quadrilateral) (p : QPointF)
    (hdf : q.drawing_complete = false)
    (hfc : (find_close_corner q p).isSome = true) :
    append_point_to_quadrilateral q p = (-1, q) := by
  unfold append_point_to_quadrilateral
  rw [hdf, hfc]
  rfl

theorem append_branch_nonconvex (q : Quadrilateral) (p : QPointF)
    (hdf : q.drawing_complete = false)
    (hfc : (find_close_corner q p).isSome = false)
    (hcv : (q.quadrilateral_points ++ [p]).length = NB_SIDE ∧
      is_convex (q.quadrilateral_points ++ [p]) = false) :
    append_point_to_quadrilateral q p = (-1, q) := by
  unfold append_point_to_quadrilateral
  rw [hdf, hfc]
  simp only [Bool.false_eq_true, if_false]
  rw [if_pos hcv]

theorem append_branch_success_four (q : Quadrilateral) (p : QPointF)
    (hdf : q.drawing_complete = false)
    (hfc : (find_close_corner q p).isSome = false)
    (hcv : is_convex (q.quadrilateral_points ++ [p]) = true)
    (hl4 : (q.quadrilateral_points ++ [p]).length = NB_SIDE) :
    append_point_to_quadrilateral q p =
      (0, update_corner_ids { q with
        quadrilateral_points := q.quadrilateral_points ++ [p]
        drawing_complete := true }) := by
  unfold append_point_to_quadrilateral
  rw [hdf, hfc]
  simp only [Bool.false_eq_true, if_false]
  rw [if_neg (by rw [hcv]; simp)]
  rw [if_pos hl4]

theorem append_branch_success_short (q : Quadrilateral) (p : QPointF)
    (hdf : q.drawing_complete = false)
    (hfc : (find_close_corner q p).isSome = false)
    (hl4 : ¬(q.quadrilateral_points ++ [p]).length = NB_SIDE) :
    append_point_to_quadrilateral q p =
      (0, { q with quadrilateral_points := q.quadrilateral_points ++ [p] }) := by
  unfold append_point_to_quadrilateral
  rw [hdf, hfc]
  simp only [Bool.false_eq_true, if_false]
  rw [if_neg (fun hx => hl4 hx.1)]
  rw [if_neg hl4]

end Quadrilateral

namespace Quadrilateral

/-- C3: `append_point_to_quadrilateral` fails (code -1) exactly when the
drawing is already complete, or the new point is within Manhattan
distance `CLOSE_POINT_DISTANCE` of a stored corner, or it is the 4th
point and the resulting 4-point cycle is not convex; on every failure the
state is unchanged; on success the point is appended, and exactly when
the list reaches 4 points the complete flag is raised and the corner-role
assignment is computed. -/
theorem append_point_spec (q : Quadrilateral) (p : QPointF) :
    ((append_point_to_quadrilateral q p).1 = -1 ↔
      (q.drawing_complete = true ∨
       (∃ pt ∈ q.quadrilateral_points,
         (p.sub pt).manhattanLength < CLOSE_POINT_DISTANCE) ∨
       (q.quadrilateral_points.length + 1 = NB_SIDE ∧
        is_convex (q.quadrilateral_points ++ [p]) = false))) ∧
    ((append_point_to_quadrilateral q p).1 = -1 →
      (append_point_to_quadrilateral q p).2 = q) ∧
    ((append_point_to_quadrilateral q p).1 ≠ -1 →
      (append_point_to_quadrilateral q p).1 = 0 ∧
      (append_point_to_quadrilateral q p).2.quadrilateral_points =
        q.quadrilateral_points ++ [p] ∧
      ((append_point_to_quadrilateral q p).2.drawing_complete = true ↔
        q.quadrilateral_points.length + 1 = NB_SIDE) ∧
      (q.quadrilateral_points.length + 1 = NB_SIDE →
        (append_point_to_quadrilateral q p).2 =
          update_corner_ids { q with
            quadrilateral_points := q.quadrilateral_points ++ [p]
            drawing_complete := true })) := by
  have hlapp : (q.quadrilateral_points ++ [p]).length = q.quadrilateral_points.length + 1 := by
    simp
  by_cases hdc : q.drawing_complete = true
  · rw [append_branch_complete q p hdc]
    exact ⟨by simp [hdc], fun _ => rfl, fun hne => absurd rfl hne⟩
  · have hdf : q.drawing_complete = false := by
      cases hq : q.drawing_complete
      · rfl
      · exact absurd hq hdc
    by_cases hfc : (find_close_corner q p).isSome = true
    · rw [append_branch_close q p hdf hfc]
      refine ⟨⟨fun _ => Or.inr (Or.inl ((find_close_corner_isSome_iff q p).mp hfc)),
        fun _ => rfl⟩, fun _ => rfl, fun hne => absurd rfl hne⟩
    · have hfcF : (find_close_corner q p).isSome = false := by
        cases hq : (find_close_corner q p).isSome
        · rfl
        · exact absurd hq hfc
      have hnone : ¬∃ pt ∈ q.quadrilateral_points,
          (p.sub pt).manhattanLength < CLOSE_POINT_DISTANCE := by
        rw [← find_close_corner_isSome_iff]
        rw [hfcF]
        exact Bool.false_ne_true
      by_cases hl4 : (q.quadrilateral_points ++ [p]).length = NB_SIDE
      · by_cases hcv : is_convex (q.quadrilateral_points ++ [p]) = true
        · rw [append_branch_success_four q p hdf hfcF hcv hl4]
          refine ⟨⟨fun h0 => absurd h0 (by norm_num), ?_⟩,
            fun h0 => absurd h0 (by norm_num), fun _ => ⟨rfl, ?_, ⟨fun _ => ?_, fun _ => ?_⟩, fun _ => rfl⟩⟩
          · rintro (h | h | h)
            · exact absurd h hdc
            · exact absurd h hnone
            · rw [hcv] at h
              exact absurd h.2 (by decide)
          · rw [update_corner_ids_points]
          · rw [← hlapp]
            exact hl4
          · rw [update_corner_ids_complete]
        · have hcvF : is_convex (q.quadrilateral_points ++ [p]) = false := by
            cases hq : is_convex (q.quadrilateral_points ++ [p])
            · rfl
            · exact absurd hq hcv
          rw [append_branch_nonconvex q p hdf hfcF ⟨hl4, hcvF⟩]
          refine ⟨⟨fun _ => Or.inr (Or.inr ⟨by rw [← hlapp]; exact hl4, hcvF⟩), fun _ => rfl⟩,
            fun _ => rfl, fun hne => absurd rfl hne⟩
      · rw [append_branch_success_short q p hdf hfcF hl4]
        refine ⟨⟨fun h0 => absurd h0 (by norm_num), ?_⟩,
          fun h0 => absurd h0 (by norm_num), fun _ => ⟨rfl, rfl, ⟨fun hcm => ?_, fun hlen4 => ?_⟩, fun hlen4 => ?_⟩⟩
        · rintro (h | h | h)
          · exact absurd h hdc
          · exact absurd h hnone
          · exact absurd (by rw [hlapp]; exact h.1) hl4
        · exact absurd (show q.drawing_complete = true from hcm) hdc
        · exact absurd (by rw [hlapp]; exact hlen4) hl4
        · exact absurd (by rw [hlapp]; exact hlen4) hl4

end Quadrilateral

namespace Quadrilateral

theorem update_branch_incomplete (q : Quadrilateral) (i : Int) (p : QPointF)
    (hdf : q.drawing_complete = false) :
    update_point q i p = (-1, q) := by
  unfold update_point
  rw [hdf]
  rfl

theorem update_branch_oob (q : Quadrilateral) (i : Int) (p : QPointF)
    (hdc : q.drawing_complete = true)
    (hb : ¬(0 ≤ i ∧ i < (NB_SIDE : Int))) :
    update_point q i p = (-1, q) := by
  unfold update_point
  rw [hdc]
  simp only [Bool.true_eq_false, if_false]
  rw [if_pos hb]

theorem update_branch_nonconvex (q : Quadrilateral) (i : Int) (p : QPointF)
    (hdc : q.drawing_complete = true)
    (hb : 0 ≤ i ∧ i < (NB_SIDE : Int))
    (hcv : is_convex (q.quadrilateral_points.set i.toNat p) = false) :
    update_point q i p = (-1, q) := by
  unfold update_point
  rw [hdc]
  simp only [Bool.true_eq_false, if_false]
  rw [if_neg (not_not_intro hb)]
  rw [if_pos hcv]

/-- C6: `update_point` fails (code -1) exactly when the drawing is not
complete, or the index is outside [0, 4), or replacing that point would
make the 4-point cycle non-convex; on every failure the state is
unchanged; on success exactly the point at the index is replaced and the
corner-role assignment is recomputed. -/
theorem update_point_spec (q : Quadrilateral) (i : Int) (p : QPointF) :
    ((update_point q i p).1 = -1 ↔
      (q.drawing_complete = false ∨ ¬(0 ≤ i ∧ i < (NB_SIDE : Int)) ∨
       is_convex (q.quadrilateral_points.set i.toNat p) = false)) ∧
    ((update_point q i p).1 = -1 → (update_point q i p).2 = q) ∧
    ((update_point q i p).1 ≠ -1 →
      (update_point q i p).1 = 0 ∧
      (update_point q i p).2.quadrilateral_points = q.quadrilateral_points.set i.toNat p ∧
      (update_point q i p).2 =
        update_corner_ids { q with
          quadrilateral_points := q.quadrilateral_points.set i.toNat p }) := by
  by_cases hdc : q.drawing_complete = true
  · by_cases hb : 0 ≤ i ∧ i < (NB_SIDE : Int)
    · by_cases hcv : is_convex (q.quadrilateral_points.set i.toNat p) = true
      · rw [update_point_success q i p hdc hb hcv]
        refine ⟨⟨fun h0 => absurd h0 (by norm_num), ?_⟩,
          fun h0 => absurd h0 (by norm_num),
          fun _ => ⟨rfl, by rw [update_corner_ids_points], rfl⟩⟩
        rintro (h | h | h)
        · rw [hdc] at h
          exact absurd h (by decide)
        · exact absurd hb h
        · rw [hcv] at h
          exact absurd h (by decide)
      · have hcvF : is_convex (q.quadrilateral_points.set i.toNat p) = false := by
          cases hq : is_convex (q.quadrilateral_points.set i.toNat p)
          · rfl
          · exact absurd hq hcv
        rw [update_branch_nonconvex q i p hdc hb hcvF]
        exact ⟨⟨fun _ => Or.inr (Or.inr hcvF), fun _ => rfl⟩, fun _ => rfl,
          fun hne => absurd rfl hne⟩
    · rw [update_branch_oob q i p hdc hb]
      exact ⟨⟨fun _ => Or.inr (Or.inl hb), fun _ => rfl⟩, fun _ => rfl,
        fun hne => absurd rfl hne⟩
  · have hdf : q.drawing_complete = false := by
      cases hq : q.drawing_complete
      · rfl
      · exact absurd hq hdc
    rw [update_branch_incomplete q i p hdf]
    exact ⟨⟨fun _ => Or.inl hdf, fun _ => rfl⟩, fun _ => rfl,
      fun hne => absurd rfl hne⟩

end Quadrilateral

namespace Quadrilateral

/-- C2 (amended): for a STRICTLY convex cyclic quadrilateral (all four
cross products strictly positive, or all strictly negative), `is_convex`
accepts the point list, all 4 cyclic rotations of it, and the reversed
(opposite-winding) list. -/
theorem is_convex_strict_all_orders (a b c d : QPointF)
    (h : (0 < cross a b c ∧ 0 < cross b c d ∧ 0 < cross c d a ∧ 0 < cross d a b) ∨
         (cross a b c < 0 ∧ cross b c d < 0 ∧ cross c d a < 0 ∧ cross d a b < 0)) :
    is_convex [a, b, c, d] = true ∧ is_convex [b, c, d, a] = true ∧
    is_convex [c, d, a, b] = true ∧ is_convex [d, a, b, c] = true ∧
    is_convex [d, c, b, a] = true := by
  rcases h with ⟨h1, h2, h3, h4⟩ | ⟨h1, h2, h3, h4⟩
  · refine ⟨(is_convex_quad_iff a b c d).mpr (Or.inl ⟨h1, h2, h3, h4⟩),
      (is_convex_quad_iff b c d a).mpr (Or.inl ⟨h2, h3, h4, h1⟩),
      (is_convex_quad_iff c d a b).mpr (Or.inl ⟨h3, h4, h1, h2⟩),
      (is_convex_quad_iff d a b c).mpr (Or.inl ⟨h4, h1, h2, h3⟩),
      (is_convex_quad_iff d c b a).mpr (Or.inr ?_)⟩
    refine ⟨?_, ?_, ?_, ?_⟩
    · rw [cross_reverse]; linarith
    · rw [show cross c b a = -cross a b c from cross_reverse a b c]; linarith
    · rw [show cross b a d = -cross d a b from cross_reverse d a b]; linarith
    · rw [show cross a d c = -cross c d a from cross_reverse c d a]; linarith
  · refine ⟨(is_convex_quad_iff a b c d).mpr (Or.inr ⟨le_of_lt h1, le_of_lt h2, le_of_lt h3, le_of_lt h4⟩),
      (is_convex_quad_iff b c d a).mpr (Or.inr ⟨le_of_lt h2, le_of_lt h3, le_of_lt h4, le_of_lt h1⟩),
      (is_convex_quad_iff c d a b).mpr (Or.inr ⟨le_of_lt h3, le_of_lt h4, le_of_lt h1, le_of_lt h2⟩),
      (is_convex_quad_iff d a b c).mpr (Or.inr ⟨le_of_lt h4, le_of_lt h1, le_of_lt h2, le_of_lt h3⟩),
      (is_convex_quad_iff d c b a).mpr (Or.inl ?_)⟩
    refine ⟨?_, ?_, ?_, ?_⟩
    · rw [cross_reverse]; linarith
    · rw [show cross c b a = -cross a b c from cross_reverse a b c]; linarith
    · rw [show cross b a d = -cross d a b from cross_reverse d a b]; linarith
    · rw [show cross a d c = -cross c d a from cross_reverse c d a]; linarith

end Quadrilateral

namespace Quadrilateral

theorem get_internal_rows_of_nonpos (q : Quadrilateral) (n : Int)
    (tl tr bl br : QPointF)
    (h1 : get_top_left q = some tl) (h2 : get_top_right q = some tr)
    (h3 : get_bottom_left q = some bl) (h4 : get_bottom_right q = some br)
    (hn : n < 1) : get_internal_rows q n = none := by
  unfold get_internal_rows
  rw [h1, h2, h3, h4]
  simp only [if_pos hn]

end Quadrilateral

namespace ImageView

/-- C4 (amended): `delete_quadrilateral` reports failure (code -1) and
changes nothing when the id is out of range; with a valid id it removes
the entry, re-assigns dense ids 0..n-2 by position in the original
relative order, and clears the selection (the selected id and every
per-shape flag) regardless of which shape was selected.  The drag state
is left unchanged by the deletion itself — the original claim that it is
cleared is refuted by the counterexample theorem. -/
theorem delete_quadrilateral_spec (v : ImageView) (i : Int) :
    ((delete_quadrilateral v i).1 = -1 ↔
      ¬(0 ≤ i ∧ i < (v.quadrilaterals.length : Int))) ∧
    ((delete_quadrilateral v i).1 = -1 → (delete_quadrilateral v i).2 = v) ∧
    ((delete_quadrilateral v i).1 ≠ -1 →
      (delete_quadrilateral v i).1 = 0 ∧
      (delete_quadrilateral v i).2.quadrilaterals =
        ((v.quadrilaterals.eraseIdx i.toNat).mapIdx fun k q =>
          { q with quadrilateral_id := some k }).map
            (fun q => { q with is_selected := false }) ∧
      (delete_quadrilateral v i).2.selected_quadrilateral_id = none ∧
      (delete_quadrilateral v i).2.dragging_quadrilateral = v.dragging_quadrilateral ∧
      (delete_quadrilateral v i).2.dragging_point_id = v.dragging_point_id) := by
  by_cases hb : 0 ≤ i ∧ i < (v.quadrilaterals.length : Int)
  · have he : delete_quadrilateral v i =
        (0, unselect_all (update_quadrilateral_ids
          { v with quadrilaterals := v.quadrilaterals.eraseIdx i.toNat })) := by
      unfold delete_quadrilateral get_nb_quadrilateral
      rw [if_neg (not_not_intro hb)]
    rw [he]
    refine ⟨⟨fun h0 => absurd h0 (by norm_num), fun hc => absurd hb hc⟩,
      fun h0 => absurd h0 (by norm_num),
      fun _ => ⟨rfl, ?_, rfl, rfl, rfl⟩⟩
    unfold unselect_all update_quadrilateral_ids
    rfl
  · have he : delete_quadrilateral v i = (-1, v) := by
      unfold delete_quadrilateral get_nb_quadrilateral
      rw [if_pos hb]
    rw [he]
    exact ⟨⟨fun _ => hb, fun _ => rfl⟩, fun _ => rfl, fun hne => absurd rfl hne⟩

end ImageView

/-! ## The claims -/

namespace Quadrilateral

/-- C1, counterexample: on the complete convex 10-by-10 square,
`move_delta` by `(100, 100)` is NOT a pure translation of all 4 points:
the first two `update_point` calls are rejected because the partially
translated intermediate polygons are non-convex, so only the last two
corners move and the shape is distorted. -/
theorem move_delta_partial_translation_cex :
    sq10.drawing_complete = true ∧
    is_convex sq10.quadrilateral_points = true ∧
    (move_delta sq10 ⟨100, 100⟩).quadrilateral_points =
      [⟨0, 0⟩, ⟨10, 0⟩, ⟨110, 110⟩, ⟨100, 110⟩] ∧
    (move_delta sq10 ⟨100, 100⟩).quadrilateral_points ≠
      sq10.quadrilateral_points.map (fun pt => pt.add ⟨100, 100⟩) := by
  decide

/-- Witness for C1 (amended): the square translated by `(1, 1)` keeps
every intermediate configuration convex, so all 4 points move. -/
theorem move_delta_translates_witness :
    (move_delta sq10 ⟨1, 1⟩).quadrilateral_points =
      sq10.quadrilateral_points.map (fun pt => pt.add ⟨1, 1⟩) :=
  move_delta_translates sq10 ⟨1, 1⟩ ⟨0, 0⟩ ⟨10, 0⟩ ⟨10, 10⟩ ⟨0, 10⟩
    (by decide) (by decide) (by decide) (by decide) (by decide) (by decide)

/-- C2, counterexample: the degenerate quadrilateral
`(0,0), (1,0), (2,0), (0,1)` has consistent winding with one interior
angle of exactly 180 degrees (all four cross products are nonnegative,
one of them zero), yet `is_convex` rejects it — while accepting the same
cycle in the opposite winding. -/
theorem is_convex_flat_angle_cex :
    (0 ≤ cross ⟨0, 0⟩ ⟨1, 0⟩ ⟨2, 0⟩ ∧ 0 ≤ cross ⟨1, 0⟩ ⟨2, 0⟩ ⟨0, 1⟩ ∧
     0 ≤ cross ⟨2, 0⟩ ⟨0, 1⟩ ⟨0, 0⟩ ∧ 0 ≤ cross ⟨0, 1⟩ ⟨0, 0⟩ ⟨1, 0⟩) ∧
    is_convex [⟨0, 0⟩, ⟨1, 0⟩, ⟨2, 0⟩, ⟨0, 1⟩] = false ∧
    is_convex [⟨0, 1⟩, ⟨2, 0⟩, ⟨1, 0⟩, ⟨0, 0⟩] = true := by
  decide

/-- Witness for C2 (amended) at the strictly convex square. -/
theorem is_convex_strict_all_orders_witness :
    is_convex [(⟨0, 0⟩ : QPointF), ⟨10, 0⟩, ⟨10, 10⟩, ⟨0, 10⟩] = true ∧
    is_convex [(⟨0, 10⟩ : QPointF), ⟨10, 10⟩, ⟨10, 0⟩, ⟨0, 0⟩] = true := by
  have h := is_convex_strict_all_orders ⟨0, 0⟩ ⟨10, 0⟩ ⟨10, 10⟩ ⟨0, 10⟩
    (Or.inl (by decide))
  exact ⟨h.1, h.2.2.2.2⟩

/-- Witness for C3: appending to the already complete square fails with
code -1 and leaves the state unchanged. -/
theorem append_point_spec_witness :
    (append_point_to_quadrilateral sq10 ⟨50, 50⟩).1 = -1 ∧
    (append_point_to_quadrilateral sq10 ⟨50, 50⟩).2 = sq10 :=
  ⟨(append_point_spec sq10 ⟨50, 50⟩).1.mpr (Or.inl (by decide)),
   (append_point_spec sq10 ⟨50, 50⟩).2.1
     ((append_point_spec sq10 ⟨50, 50⟩).1.mpr (Or.inl (by decide)))⟩

/-- C5: clicking the 10-by-10 square corners in any of the 4 cyclic
rotations of the order `(0,0), (10,0), (10,10), (0,10)` succeeds at every
append and the corner-role accessors return the geometric corners. -/
theorem square_rotations_roundtrip :
    ∀ r ∈ [sqPts, sqPts1, sqPts2, sqPts3],
      (clickSequence r).1 = [0, 0, 0, 0] ∧
      (clickSequence r).2.drawing_complete = true ∧
      get_top_left (clickSequence r).2 = some ⟨0, 0⟩ ∧
      get_top_right (clickSequence r).2 = some ⟨10, 0⟩ ∧
      get_bottom_left (clickSequence r).2 = some ⟨0, 10⟩ ∧
      get_bottom_right (clickSequence r).2 = some ⟨10, 10⟩ := by
  decide

/-- Witness for C5 at the second rotation. -/
theorem square_rotations_roundtrip_witness :
    (clickSequence sqPts1).1 = [0, 0, 0, 0] ∧
    get_top_left (clickSequence sqPts1).2 = some ⟨0, 0⟩ :=
  ⟨(square_rotations_roundtrip sqPts1 (by decide)).1,
   (square_rotations_roundtrip sqPts1 (by decide)).2.2.1⟩

/-- Witness for C6: moving corner 0 of the square to `(1, 1)` keeps the
shape convex, so the update succeeds and replaces exactly that point. -/
theorem update_point_spec_witness :
    (update_point sq10 0 ⟨1, 1⟩).1 = 0 ∧
    (update_point sq10 0 ⟨1, 1⟩).2.quadrilateral_points =
      sq10.quadrilateral_points.set 0 ⟨1, 1⟩ := by
  have h := (update_point_spec sq10 0 ⟨1, 1⟩).2.2 (by decide)
  exact ⟨h.1, h.2.1⟩

/-- C7: on the complete 10-by-10 square, `get_internal_rows 4` returns
exactly the 3 horizontal segments at y = 2.5, 5, 7.5 (in increasing
interpolation order, each spanning x = 0..10), `get_internal_rows 1`
returns the empty list, and any count below 1 returns `none`. -/
theorem internal_rows_square :
    get_internal_rows sq10 4 =
      some [[⟨0, 5/2⟩, ⟨10, 5/2⟩], [⟨0, 5⟩, ⟨10, 5⟩], [⟨0, 15/2⟩, ⟨10, 15/2⟩]] ∧
    get_internal_rows sq10 1 = some [] ∧
    (∀ n : Int, n ≤ 0 → get_internal_rows sq10 n = none) := by
  refine ⟨by decide, by decide, fun n hn => ?_⟩
  exact get_internal_rows_of_nonpos sq10 n ⟨0, 0⟩ ⟨10, 0⟩ ⟨0, 10⟩ ⟨10, 10⟩
    (by decide) (by decide) (by decide) (by decide) (by omega)

/-- Witness for C7 at counts 0 and -3. -/
theorem internal_rows_square_witness :
    get_internal_rows sq10 (-3) = none ∧ get_internal_rows sq10 0 = none :=
  ⟨internal_rows_square.2.2 (-3) (by decide), internal_rows_square.2.2 0 (by decide)⟩

/-- C8: `is_point_in_quadrilateral` returns `False` for every point when
the drawing is not complete; on the complete 10-by-10 square it returns
`True` at `(5, 5)` and `False` at `(15, 15)`. -/
theorem point_in_quadrilateral_spec :
    (∀ (q : Quadrilateral) (p : QPointF), q.drawing_complete = false →
      is_point_in_quadrilateral q p = some false) ∧
    is_point_in_quadrilateral sq10 ⟨5, 5⟩ = some true ∧
    is_point_in_quadrilateral sq10 ⟨15, 15⟩ = some false := by
  refine ⟨?_, by decide, by decide⟩
  intro q p h
  unfold is_point_in_quadrilateral
  rw [h]
  rfl

/-- Witness for C8 on a fresh (incomplete) quadrilateral. -/
theorem point_in_quadrilateral_spec_witness :
    is_point_in_quadrilateral init ⟨3, 3⟩ = some false :=
  point_in_quadrilateral_spec.1 init ⟨3, 3⟩ rfl

/-- C9: the corner-role invariant — a complete quadrilateral has 4 points
and defined corner ids forming a permutation of 0..3 — is preserved by
`append_point_to_quadrilateral`, `update_point` and `move_delta`, and on
a complete state all four corner accessors return a point. -/
theorem corner_role_invariant (q : Quadrilateral) (p delta : QPointF) (i : Int)
    (h : corner_ids_ok q) :
    corner_ids_ok (append_point_to_quadrilateral q p).2 ∧
    corner_ids_ok (update_point q i p).2 ∧
    corner_ids_ok (move_delta q delta) ∧
    (q.drawing_complete = true →
      ((get_top_left q).isSome = true ∧ (get_top_right q).isSome = true ∧
       (get_bottom_left q).isSome = true ∧ (get_bottom_right q).isSome = true) ∧
      ∃ tl tr bl br, q.top_left_id = some tl ∧ q.top_right_id = some tr ∧
        q.bottom_left_id = some bl ∧ q.bottom_right_id = some br ∧
        [tl, tr, bl, br].Perm [0, 1, 2, 3]) :=
  ⟨corner_ids_ok_append q p h, corner_ids_ok_update_point q i p h,
   corner_ids_ok_move_delta q delta h,
   fun hc => ⟨corner_accessors_isSome q h hc, (h hc).2⟩⟩

/-- Witness for C9 at the concrete square. -/
theorem corner_role_invariant_witness :
    (get_top_left sq10).isSome = true ∧ corner_ids_ok (move_delta sq10 ⟨1, 1⟩) := by
  have hok : corner_ids_ok sq10 := fun _ =>
    ⟨by decide, 0, 1, 3, 2, by decide, by decide, by decide, by decide, by decide⟩
  have h := corner_role_invariant sq10 ⟨0, 0⟩ ⟨1, 1⟩ 0 hok
  exact ⟨(h.2.2.2 (by decide)).1.1, h.2.2.1⟩

/-- C10: the closeness test is strict — a candidate point at Manhattan
distance at least `CLOSE_POINT_DISTANCE` (including exactly 10) from every
stored corner is never reported close and never rejected for proximity by
`append_point_to_quadrilateral`; the diamond whose adjacent corners are
at Manhattan distance exactly 10 is constructible. -/
theorem close_point_threshold_strict :
    (∀ (q : Quadrilateral) (p : QPointF),
      (∀ pt ∈ q.quadrilateral_points,
        CLOSE_POINT_DISTANCE ≤ (p.sub pt).manhattanLength) →
      find_close_corner q p = none) ∧
    (∀ (q : Quadrilateral) (p : QPointF),
      (∀ pt ∈ q.quadrilateral_points,
        CLOSE_POINT_DISTANCE ≤ (p.sub pt).manhattanLength) →
      q.drawing_complete = false →
      (q.quadrilateral_points.length + 1 = NB_SIDE →
        is_convex (q.quadrilateral_points ++ [p]) = true) →
      (append_point_to_quadrilateral q p).1 = 0) ∧
    ((clickSequence diamondPts).1 = [0, 0, 0, 0] ∧
     (clickSequence diamondPts).2.drawing_complete = true ∧
     (QPointF.sub ⟨10, 5⟩ ⟨5, 0⟩).manhattanLength = CLOSE_POINT_DISTANCE ∧
     (QPointF.sub ⟨5, 10⟩ ⟨10, 5⟩).manhattanLength = CLOSE_POINT_DISTANCE ∧
     (QPointF.sub ⟨0, 5⟩ ⟨5, 10⟩).manhattanLength = CLOSE_POINT_DISTANCE ∧
     (QPointF.sub ⟨5, 0⟩ ⟨0, 5⟩).manhattanLength = CLOSE_POINT_DISTANCE) := by
  have hfcnone : ∀ (q : Quadrilateral) (p : QPointF),
      (∀ pt ∈ q.quadrilateral_points,
        CLOSE_POINT_DISTANCE ≤ (p.sub pt).manhattanLength) →
      find_close_corner q p = none := by
    intro q p hfar
    rw [find_close_corner_eq_none_iff]
    intro pt hm
    exact not_lt.mpr (hfar pt hm)
  refine ⟨hfcnone, ?_, by decide, by decide, by decide, by decide, by decide, by decide⟩
  intro q p hfar hdf hcv
  have hfcF : (find_close_corner q p).isSome = false := by
    rw [hfcnone q p hfar]
    rfl
  by_cases hl4 : (q.quadrilateral_points ++ [p]).length = NB_SIDE
  · rw [append_branch_success_four q p hdf hfcF (hcv (by simpa using hl4)) hl4]
  · rw [append_branch_success_short q p hdf hfcF hl4]

/-- Witness for C10: a point at Manhattan distance exactly 10 from the
single stored corner is not reported close and is appended with code 0. -/
theorem close_point_threshold_strict_witness :
    find_close_corner (clickSequence [⟨0, 0⟩]).2 ⟨10, 0⟩ = none ∧
    (append_point_to_quadrilateral (clickSequence [⟨0, 0⟩]).2 ⟨10, 0⟩).1 = 0 :=
  ⟨close_point_threshold_strict.1 (clickSequence [⟨0, 0⟩]).2 ⟨10, 0⟩ (by decide),
   close_point_threshold_strict.2.1 (clickSequence [⟨0, 0⟩]).2 ⟨10, 0⟩
     (by decide) (by decide) (by decide)⟩

end Quadrilateral

/-- C4, counterexample: deleting the only shape of a collection captured
mid-drag clears the selection but does NOT clear the drag state —
`delete_quadrilateral` only calls `unselect_all`, which never touches the
drag fields. -/
theorem delete_keeps_drag_state_cex :
    (ImageView.delete_quadrilateral vDrag 0).1 = 0 ∧
    (ImageView.delete_quadrilateral vDrag 0).2.selected_quadrilateral_id = none ∧
    (ImageView.delete_quadrilateral vDrag 0).2.dragging_quadrilateral = true ∧
    (ImageView.delete_quadrilateral vDrag 0).2.dragging_point_id = some 1 := by
  decide

/-- Witness for C4 (amended): deleting index 0 from the mid-drag
collection succeeds and clears the selection. -/
theorem delete_quadrilateral_spec_witness :
    (ImageView.delete_quadrilateral vDrag 0).1 = 0 ∧
    (ImageView.delete_quadrilateral vDrag 0).2.selected_quadrilateral_id = none := by
  have h := (ImageView.delete_quadrilateral_spec vDrag 0).2.2 (by decide)
  exact ⟨h.1, h.2.2.1⟩
